import Mathlib

/-!
Verification of the banana-slides backend's asynchronous generation-task
subsystem against its specification.

The definitions below are a shallow embedding of the relevant Python source:
  * `backend/models/task.py`            — Task progress accessors
  * `backend/controllers/page_controller.py`
      - the outline-reconstruction loop inside `generate_page_image`
      - the synchronous validation prefixes of `generate_page_image` and
        `edit_page_image`
      - `set_current_image_version`
  * `backend/controllers/export_controller.py` — `export_editable_pptx`
  * `backend/controllers/reference_file_controller.py`
      - `trigger_file_parse` and `_parse_file_async`

Python truthiness on optional strings (`if s:`) is modelled by `strTruthy`,
which is false for `None` and for the empty string.
-/

namespace BananaSlides

/-- Python truthiness of an optional string column: `None` and `""` are falsy. -/
def strTruthy : Option String → Bool
  | none => false
  | some s => !(s == "")

/-! ## Task progress (`backend/models/task.py`)

`Task.progress` is a nullable Text column holding a JSON object
`{"total": t, "completed": c, "failed": f}`.  We model the parsed counters as
`Progress` and the raw column as `StoredProgress`: the column is either NULL,
a string that `json.loads` rejects (raising `JSONDecodeError`), or a JSON
encoding of counters.  `json.dumps` of a counters dict always reparses to the
same dict, which the `valid` constructor captures. -/

structure Progress where
  total : Int
  completed : Int
  failed : Int
deriving Repr, DecidableEq

/-- The raw nullable `progress` Text column. -/
inductive StoredProgress where
  /-- column is NULL (or the empty string, falsy in Python) -/
  | pnone
  /-- column text that is not valid JSON: `json.loads` raises `JSONDecodeError` -/
  | invalid (s : String)
  /-- column holds the JSON encoding of counters `p` -/
  | valid (p : Progress)
deriving Repr, DecidableEq

/-- `Task.get_progress` (task.py lines 30-37): parse the column, returning
zero counters when the column is falsy or `json.loads` raises. -/
def get_progress : StoredProgress → Progress
  | .pnone => { total := 0, completed := 0, failed := 0 }
  | .invalid _ => { total := 0, completed := 0, failed := 0 }
  | .valid p => p

/-- `Task.set_progress` (task.py lines 39-44): store the JSON dump, or NULL
for falsy data. -/
def set_progress : Option Progress → StoredProgress
  | some p => .valid p
  | none => .pnone

/-- `Task.update_progress` (task.py lines 46-53): read the counters, overwrite
the `completed` / `failed` fields that were supplied, and store the result.
(The resulting dict is non-empty, hence truthy for `set_progress`.) -/
def update_progress (sp : StoredProgress) (completed failed : Option Int) : StoredProgress :=
  let prog := get_progress sp
  let prog := match completed with
    | some c => { prog with completed := c }
    | none => prog
  let prog := match failed with
    | some f => { prog with failed := f }
    | none => prog
  set_progress (some prog)

/-- The progress invariant stated in the spec (§3, §8). -/
def progressInv (p : Progress) : Prop :=
  p.completed ≤ p.total ∧ p.failed ≤ p.total ∧ p.completed + p.failed ≤ p.total

instance (p : Progress) : Decidable (progressInv p) := by
  unfold progressInv; infer_instance

/-! ## VersionLedger (`PageImageVersion` rows and `set_current_image_version`)

A `PageState` is the slice of database state the ledger operation touches:
the page's `page_image_versions` rows (in some row order) and the page's
denormalized `generated_image_path` pointer.  Row ids are primary keys, so
theorems assume the mapped ids are `Nodup`. -/

structure ImageVersion where
  id : String
  image_path : String
  version_number : Int
  is_current : Bool
deriving Repr, DecidableEq

structure PageState where
  versions : List ImageVersion
  generated_image_path : Option String
deriving Repr, DecidableEq

/-- `set_current_image_version` (page_controller.py lines 622-654), for a page
that exists: fetch the version row by id (404 → `none` when absent), bulk-update
all of the page's rows to `is_current = False`, set the fetched row current, and
point the page at its image path; all of this commits as one transaction. -/
def set_current_image_version (st : PageState) (version_id : String) : Option PageState :=
  match st.versions.find? (fun v => v.id == version_id) with
  | none => none
  | some version =>
    let cleared := st.versions.map (fun v => { v with is_current := false })
    let updated := cleared.map
      (fun v => if v.id == version.id then { v with is_current := true } else v)
    some { versions := updated, generated_image_path := some version.image_path }

/-- The page pointer agrees with the first current row (or is null). -/
def pointerOk (st : PageState) : Prop :=
  st.generated_image_path = (st.versions.find? (fun v => v.is_current)).map
    (fun v => v.image_path)

instance (st : PageState) : Decidable (pointerOk st) := by
  unfold pointerOk; infer_instance

/-- The ledger invariant from spec §3: at most one row is current, and the
page's pointer equals the current row's path — null when no row is current. -/
def ledgerInv (st : PageState) : Prop :=
  (st.versions.filter (fun v => v.is_current)).length ≤ 1 ∧ pointerOk st

instance (st : PageState) : Decidable (ledgerInv st) := by
  unfold ledgerInv; exact instDecidableAnd

/-! ## Outline reconstruction (`generate_page_image`, page_controller.py 317-364)

A page row contributes its parsed `outline_content` JSON (modelled as
`PageData`: an opaque payload plus a possible redundant `part` key inside the
JSON, which the code deletes when the page joins a group) and its `part`
column.  Pages whose `outline_content` is absent are skipped by the loop. -/

structure PageData where
  payload : String
  partKey : Option String
deriving Repr, DecidableEq

instance : Inhabited PageData := ⟨⟨"", none⟩⟩

structure SrcPage where
  part : Option String
  outline_content : Option PageData
deriving Repr, DecidableEq

inductive OutlineNode where
  | page (data : PageData)
  | group (part : String) (pages : List PageData)
deriving Repr, DecidableEq

/-- One grouped page entry: `page_data = oc.copy()` followed by
`del page_data['part']` (lines 329, 343-344). -/
def groupedData (oc : PageData) : PageData := { oc with partKey := none }

/-- The reconstruction loop of page_controller.py lines 319-364, state-passing
style: `cp` is `current_part`, `cpp` is `current_part_pages`, `out` the
`outline` list built so far.  On exhaustion the pending part, if any, is
flushed (lines 359-364). -/
def reconLoop : List SrcPage → Option String → List PageData → List OutlineNode →
    List OutlineNode
  | [], cp, cpp, out =>
      if strTruthy cp then out ++ [OutlineNode.group (cp.getD "") cpp] else out
  | p :: rest, cp, cpp, out =>
      match p.outline_content with
      | none => reconLoop rest cp cpp out
      | some oc =>
        if strTruthy p.part then
          if strTruthy cp && !(cp == p.part) then
            reconLoop rest p.part [groupedData oc]
              (out ++ [OutlineNode.group (cp.getD "") cpp])
          else
            reconLoop rest p.part (cpp ++ [groupedData oc]) out
        else
          if strTruthy cp then
            reconLoop rest none []
              (out ++ [OutlineNode.group (cp.getD "") cpp, OutlineNode.page oc])
          else
            reconLoop rest cp cpp (out ++ [OutlineNode.page oc])

/-- The full outline reconstruction performed by `generate_page_image` over the
project's pages ordered by `order_index`. -/
def reconstructOutline (pages : List SrcPage) : List OutlineNode :=
  reconLoop pages none [] []

/-- A page together with materialized outline content (the pages the loop does
not skip). -/
structure OPage where
  part : Option String
  data : PageData
deriving Repr, DecidableEq

/-- The content-bearing pages, in order. -/
def contentPages (pages : List SrcPage) : List OPage :=
  pages.filterMap (fun p => p.outline_content.map (fun oc => ⟨p.part, oc⟩))

/-- Modelled from the spec's words (§4.4), for comparison with
`reconstructOutline`: a maximal run of consecutive pages sharing the same
non-empty part label collapses into one group node; a page without a part
stays a standalone node in its original position. -/
def specOutline : List OPage → List OutlineNode
  | [] => []
  | p :: rest =>
    if strTruthy p.part then
      OutlineNode.group (p.part.getD "")
          ((p :: rest.takeWhile (fun q => q.part == p.part)).map (fun q => groupedData q.data))
        :: specOutline (rest.dropWhile (fun q => q.part == p.part))
    else
      OutlineNode.page p.data :: specOutline rest
termination_by l => l.length
decreasing_by
  all_goals simp_wf
  · refine Nat.lt_succ_of_le ?_
    induction rest with
    | nil => simp
    | cons a t ih =>
      rw [List.dropWhile_cons]
      split
      · exact Nat.le_trans ih (Nat.le_succ _)
      · exact Nat.le_refl _

/-! ## Synchronous request validation

The database rows the handlers consult.  `description_content` models the
result of `Page.get_description_content()`: `none` stands for a NULL column,
text `json.loads` rejects, or a falsy (empty) parsed dict; `some` is a
non-empty parsed dict (its contents do not matter to the checks below). -/

structure PageRec where
  project_id : String
  part : Option String
  outline_content : Option PageData
  description_content : Option String
  generated_image_path : Option String
deriving Repr, DecidableEq

structure ProjectRec where
  template_image_path : Option String
  template_style : Option String
  extra_requirements : Option String
deriving Repr, DecidableEq

/-- Modelled from the spec: `FileService.get_template_path` lives in the
`services/` package, which is not part of the source tree.  Per spec §3 a
project has pipeline-relevant attributes including an uploaded template image;
the file service returns the stored path of that image when one exists. -/
def get_template_path (pr : ProjectRec) : Option String := pr.template_image_path

/-- Outcome of `generate_page_image`'s synchronous part: a 404, a 400
validation error, or the creation of a PENDING task carrying the given initial
stored progress, followed by submission to the task manager. -/
inductive GenResult where
  | notFound (what : String)
  | badRequest (msg : String)
  | taskCreated (initialProgress : StoredProgress)
deriving Repr, DecidableEq

/-- `true` exactly when the handler committed a new `Task` row. -/
def GenResult.createsTask : GenResult → Bool
  | .taskCreated _ => true
  | _ => false

/-- `true` exactly when the handler answered with a 400 validation error. -/
def GenResult.isValidationError : GenResult → Bool
  | .badRequest _ => true
  | _ => false

/-- `generate_page_image` (page_controller.py lines 281-456), up to the point
where the handler either rejects or commits the PENDING task and submits the
background work.  Checks appear in source order: page lookup, project lookup,
image-already-exists (unless `force_regenerate`), missing description, and —
after the outline reconstruction and template resolution — the
no-template-and-no-style rejection. -/
def generate_page_image (page : Option PageRec) (project : Option ProjectRec)
    (project_id : String) (use_template force_regenerate : Bool) : GenResult :=
  match page with
  | none => .notFound "Page"
  | some pg =>
    if !(pg.project_id == project_id) then .notFound "Page"
    else
      match project with
      | none => .notFound "Project"
      | some pr =>
        if strTruthy pg.generated_image_path && !force_regenerate then
          .badRequest "Image already exists. Set force_regenerate=true to regenerate"
        else if pg.description_content.isNone then
          .badRequest "Page must have description content first"
        else
          let ref_image_path := if use_template then get_template_path pr else none
          if !(strTruthy ref_image_path) && !(strTruthy pr.template_style) then
            .badRequest "No template image or style description found for project"
          else
            .taskCreated (set_progress (some { total := 1, completed := 0, failed := 0 }))

/-- Outcome of `edit_page_image`'s synchronous validation prefix
(page_controller.py lines 459-495).  `passedValidation` marks control reaching
past the synchronous checks into the body that assembles references and
creates the EDIT_PAGE_IMAGE task; that remainder is not modelled here. -/
inductive EditResult where
  | notFound (what : String)
  | badRequest (msg : String)
  | passedValidation
deriving Repr, DecidableEq

def EditResult.isValidationError : EditResult → Bool
  | .badRequest _ => true
  | _ => false

/-- `true` only past the validation prefix — on every other branch the handler
returns before the `Task(...)` constructor at line 554 runs. -/
def EditResult.mayCreateTask : EditResult → Bool
  | .passedValidation => true
  | _ => false

/-- `edit_page_image` (page_controller.py lines 459-495): page lookup, then the
missing-generated-image rejection, then project lookup, then the
missing-instruction rejection. -/
def edit_page_image (page : Option PageRec) (project : Option ProjectRec)
    (project_id : String) (edit_instruction : String) : EditResult :=
  match page with
  | none => .notFound "Page"
  | some pg =>
    if !(pg.project_id == project_id) then .notFound "Page"
    else if !(strTruthy pg.generated_image_path) then
      .badRequest "Page must have generated image first"
    else
      match project with
      | none => .notFound "Project"
      | some _ =>
        if edit_instruction == "" then .badRequest "edit_instruction is required"
        else .passedValidation

/-- Outcome of `export_editable_pptx` (export_controller.py lines 162-272):
the EXPORT_EDITABLE_PPTX task row is committed with no progress set (the
`progress` column stays NULL), then submitted. -/
inductive ExportResult where
  | notFound (what : String)
  | badRequest (msg : String)
  | taskCreated (initialProgress : StoredProgress)
deriving Repr, DecidableEq

def ExportResult.createsTask : ExportResult → Bool
  | .taskCreated _ => true
  | _ => false

def ExportResult.isValidationError : ExportResult → Bool
  | .badRequest _ => true
  | _ => false

/-- `export_editable_pptx` (export_controller.py lines 162-272): project
lookup, empty-page-list rejection, then the `has_images` any-check over the
pages ordered by `order_index`; only then is the task row created. -/
def export_editable_pptx (project : Option ProjectRec) (pages : List PageRec) :
    ExportResult :=
  match project with
  | none => .notFound "Project"
  | some _ =>
    if pages.isEmpty then .badRequest "No pages found for project"
    else if !(pages.any (fun p => strTruthy p.generated_image_path)) then
      .badRequest "No generated images found for project"
    else .taskCreated StoredProgress.pnone

/-! ## Reference-file parse state machine
(`reference_file_controller.py`; the `ReferenceFile` model module itself is not
in the source tree — its fields are taken from the controller's reads and
writes, matching spec §3/§4.6). -/

inductive ParseStatus where
  | pending
  | parsing
  | completed
  | failed
deriving Repr, DecidableEq

structure ReferenceFileRec where
  parse_status : ParseStatus
  markdown_content : Option String
  error_message : Option String
  mineru_batch_id : Option String
deriving Repr, DecidableEq

/-- What `trigger_file_parse` left behind: the committed file row, whether a
background parse thread was started, and whether the response was an error. -/
structure TriggerResult where
  file : ReferenceFileRec
  parseStarted : Bool
  ok : Bool
deriving Repr, DecidableEq

/-- `trigger_file_parse` (reference_file_controller.py lines 366-420), for an
existing file row: a file already `parsing` is returned untouched with no new
thread; a `completed`/`failed` file is reset to `pending` with its markdown,
error and batch id cleared (and committed) before anything else; then the
parse thread starts only if the stored file still exists on disk. -/
def trigger_file_parse (rf : ReferenceFileRec) (file_exists : Bool) : TriggerResult :=
  if rf.parse_status == .parsing then
    { file := rf, parseStarted := false, ok := true }
  else
    let rf :=
      if rf.parse_status == .completed || rf.parse_status == .failed then
        { rf with parse_status := .pending, error_message := none,
                  markdown_content := none, mineru_batch_id := none }
      else rf
    if !file_exists then { file := rf, parseStarted := false, ok := false }
    else { file := rf, parseStarted := true, ok := true }

/-- The provider's five-tuple result `(batch_id, markdown_content, extract_id,
error_message, failed_image_count)` from `parser.parse_file`, restricted to
the fields `_parse_file_async` writes back. -/
structure ParseOutcome where
  batch_id : Option String
  markdown : String
  error : Option String
deriving Repr, DecidableEq

/-- `_parse_file_async` (reference_file_controller.py lines 92-155) on an
existing row: mark the row `parsing` (committed), run the parser, then record
the batch id and either the failure or the completed markdown. -/
def parse_file_async (rf : ReferenceFileRec) (outcome : ParseOutcome) : ReferenceFileRec :=
  let rf := { rf with parse_status := .parsing }
  let rf := { rf with mineru_batch_id := outcome.batch_id }
  match outcome.error with
  | some e => { rf with parse_status := .failed, error_message := some e }
  | none => { rf with parse_status := .completed, markdown_content := some outcome.markdown }

/-! ## Helper lemmas -/

theorem two_le_length_of_two_mem {α} {u v : α} {l : List α}
    (hu : u ∈ l) (hv : v ∈ l) (huv : u ≠ v) : 2 ≤ l.length := by
  induction l with
  | nil => cases hu
  | cons a t ih =>
    rcases List.mem_cons.mp hu with rfl | hut
    · rcases List.mem_cons.mp hv with rfl | hvt
      · exact absurd rfl huv
      · have := List.length_pos_of_mem hvt
        simp only [List.length_cons]; omega
    · rcases List.mem_cons.mp hv with rfl | hvt
      · have := List.length_pos_of_mem hut
        simp only [List.length_cons]; omega
      · have := ih hut hvt
        simp only [List.length_cons]; omega

theorem eq_of_filter_length_le_one {α} {p : α → Bool} {l : List α}
    (h : (l.filter p).length ≤ 1) {u v : α}
    (hu : u ∈ l) (hpu : p u = true) (hv : v ∈ l) (hpv : p v = true) : u = v := by
  by_contra hne
  have h2 := two_le_length_of_two_mem (List.mem_filter.mpr ⟨hu, hpu⟩)
    (List.mem_filter.mpr ⟨hv, hpv⟩) hne
  omega

theorem filter_key_length_le_one {l : List ImageVersion}
    (hn : (l.map (fun v => v.id)).Nodup) (x : String) :
    (l.filter (fun v => v.id == x)).length ≤ 1 := by
  induction l with
  | nil => simp
  | cons a t ih =>
    rw [List.map_cons, List.nodup_cons] at hn
    rw [List.filter_cons]
    split
    · rename_i hax
      have hnil : t.filter (fun v => v.id == x) = [] := by
        rw [List.filter_eq_nil_iff]
        intro b hb hbx
        refine hn.1 ?_
        have : a.id = b.id := by
          have h1 : a.id = x := by simpa using hax
          have h2 : b.id = x := by simpa using hbx
          rw [h1, h2]
        rw [this]
        exact List.mem_map_of_mem _ hb
      simp [hnil]
    · exact Nat.le_trans (ih hn.2) (Nat.le_refl _)

/-! ## Claims -/

/-- C3, counterexample: `update_progress` does not enforce the counter
invariant — on a fresh task (NULL progress, so total 0), setting
`completed := 1` yields counters with `completed > total`. -/
theorem C3_counterexample :
    ¬ progressInv (get_progress (update_progress StoredProgress.pnone (some 1) none)) := by
  decide

/-- C3, amended: the counters satisfy the invariant at creation (NULL
progress parses to all-zero counters), and `update_progress` merely overwrites
the supplied fields over the stored total, so a call preserves the invariant
exactly when the values the caller supplies satisfy it; the model itself does
not clamp or reject violating values. -/
theorem C3_progress_invariant_conditional :
    progressInv (get_progress StoredProgress.pnone) ∧
    ∀ (sp : StoredProgress) (c f : Int),
      progressInv { total := (get_progress sp).total, completed := c, failed := f } →
      progressInv (get_progress (update_progress sp (some c) (some f))) := by
  refine ⟨by decide, ?_⟩
  intro sp c f h
  exact h

/-- Witness for C3: a concrete in-bounds update preserves the invariant. -/
theorem C3_progress_invariant_conditional_witness :
    progressInv (get_progress (update_progress
      (StoredProgress.valid { total := 5, completed := 0, failed := 0 }) (some 3) (some 2))) :=
  C3_progress_invariant_conditional.2
    (StoredProgress.valid { total := 5, completed := 0, failed := 0 }) 3 2 (by decide)

/-- C10: `get_progress` is total and returns all-zero counters when the stored
progress column is NULL or is text that `json.loads` rejects. -/
theorem C10_get_progress_defaults :
    get_progress StoredProgress.pnone = { total := 0, completed := 0, failed := 0 } ∧
    ∀ s : String,
      get_progress (StoredProgress.invalid s) = { total := 0, completed := 0, failed := 0 } :=
  ⟨rfl, fun _ => rfl⟩

/-- C4: an edit-image request on a page whose `generated_image_path` is unset
(NULL or empty) is rejected synchronously with a 400 validation error, before
control can reach the task-creation block. -/
theorem C4_edit_requires_generated_image
    (pg : PageRec) (project : Option ProjectRec) (pid instr : String)
    (hpid : pg.project_id = pid)
    (himg : strTruthy pg.generated_image_path = false) :
    edit_page_image (some pg) project pid instr =
      EditResult.badRequest "Page must have generated image first" ∧
    (edit_page_image (some pg) project pid instr).mayCreateTask = false := by
  have : edit_page_image (some pg) project pid instr =
      EditResult.badRequest "Page must have generated image first" := by
    simp [edit_page_image, hpid, himg]
  exact ⟨this, by rw [this]; rfl⟩

/-- Witness for C4 at a concrete page with no generated image. -/
theorem C4_edit_requires_generated_image_witness :
    edit_page_image (some ⟨"p1", none, none, some "desc", none⟩) none "p1" "make it blue" =
      EditResult.badRequest "Page must have generated image first" ∧
    (edit_page_image (some ⟨"p1", none, none, some "desc", none⟩) none "p1"
        "make it blue").mayCreateTask = false :=
  C4_edit_requires_generated_image _ _ _ _ rfl rfl

/-- C5, counterexample: for a project with a page but no generated image, the
editable export is rejected in the request handler as a 400 validation error
and no TaskRecord is created — there is no task-level failure, contradicting
the claim's "fail fast (as a task error)" reading. -/
theorem C5_counterexample :
    export_editable_pptx (some ⟨none, none, none⟩) [⟨"p1", none, none, none, none⟩] =
      ExportResult.badRequest "No generated images found for project" ∧
    (export_editable_pptx (some ⟨none, none, none⟩)
        [⟨"p1", none, none, none, none⟩]).createsTask = false :=
  ⟨rfl, rfl⟩

/-- C5, amended: when a project has pages but none of them has a
currently-generated image, the editable export is rejected synchronously as a
validation error and no TaskRecord is created (so none is marked FAILED). -/
theorem C5_export_no_images_validation_error
    (pr : ProjectRec) (pages : List PageRec)
    (hne : pages ≠ [])
    (hnoimg : pages.any (fun p => strTruthy p.generated_image_path) = false) :
    export_editable_pptx (some pr) pages =
      ExportResult.badRequest "No generated images found for project" ∧
    (export_editable_pptx (some pr) pages).createsTask = false := by
  have : export_editable_pptx (some pr) pages =
      ExportResult.badRequest "No generated images found for project" := by
    simp [export_editable_pptx, hnoimg, List.isEmpty_eq_false, hne]
  exact ⟨this, by rw [this]; rfl⟩

/-- Witness for C5's amended claim at a concrete two-page project. -/
theorem C5_export_no_images_validation_error_witness :
    export_editable_pptx (some ⟨none, some "minimal", none⟩)
        [⟨"p1", none, none, none, none⟩, ⟨"p1", none, none, some "d", none⟩] =
      ExportResult.badRequest "No generated images found for project" ∧
    (export_editable_pptx (some ⟨none, some "minimal", none⟩)
        [⟨"p1", none, none, none, none⟩, ⟨"p1", none, none, some "d", none⟩]).createsTask
      = false :=
  C5_export_no_images_validation_error _ _ (by decide) (by decide)

/-- C7: single-page image generation validates synchronously before any task
exists — a page with no description content is rejected with a 400 validation
error, and a page that already has a generated image is rejected when the
force flag is unset; in both cases no TaskRecord is created. -/
theorem C7_generate_validates_synchronously
    (pg : PageRec) (pr : ProjectRec) (pid : String) (ut fr : Bool)
    (hpid : pg.project_id = pid) :
    (pg.description_content = none →
      (generate_page_image (some pg) (some pr) pid ut fr).isValidationError = true ∧
      (generate_page_image (some pg) (some pr) pid ut fr).createsTask = false) ∧
    (strTruthy pg.generated_image_path = true → fr = false →
      generate_page_image (some pg) (some pr) pid ut fr =
        GenResult.badRequest "Image already exists. Set force_regenerate=true to regenerate" ∧
      (generate_page_image (some pg) (some pr) pid ut fr).createsTask = false) := by
  constructor
  · intro hdesc
    by_cases himg : (strTruthy pg.generated_image_path && !fr) = true
    · have : generate_page_image (some pg) (some pr) pid ut fr =
          GenResult.badRequest "Image already exists. Set force_regenerate=true to regenerate" := by
        simp [generate_page_image, hpid, himg]
      rw [this]; exact ⟨rfl, rfl⟩
    · have : generate_page_image (some pg) (some pr) pid ut fr =
          GenResult.badRequest "Page must have description content first" := by
        simp [generate_page_image, hpid, himg, hdesc]
      rw [this]; exact ⟨rfl, rfl⟩
  · intro himg hfr
    have : generate_page_image (some pg) (some pr) pid ut fr =
        GenResult.badRequest "Image already exists. Set force_regenerate=true to regenerate" := by
      simp [generate_page_image, hpid, himg, hfr]
    rw [this]; exact ⟨this ▸ rfl, rfl⟩

/-- Witness for C7: a concrete page with no description and a concrete page
whose image already exists, both rejected without a task. -/
theorem C7_generate_validates_synchronously_witness :
    ((generate_page_image (some ⟨"p1", none, none, none, none⟩)
        (some ⟨none, some "style", none⟩) "p1" true false).isValidationError = true ∧
      (generate_page_image (some ⟨"p1", none, none, none, none⟩)
        (some ⟨none, some "style", none⟩) "p1" true false).createsTask = false) ∧
    (generate_page_image (some ⟨"p1", none, none, some "d", some "img.png"⟩)
        (some ⟨none, some "style", none⟩) "p1" true false =
      GenResult.badRequest "Image already exists. Set force_regenerate=true to regenerate" ∧
      (generate_page_image (some ⟨"p1", none, none, some "d", some "img.png"⟩)
        (some ⟨none, some "style", none⟩) "p1" true false).createsTask = false) :=
  ⟨(C7_generate_validates_synchronously ⟨"p1", none, none, none, none⟩
      ⟨none, some "style", none⟩ "p1" true false rfl).1 rfl,
   (C7_generate_validates_synchronously ⟨"p1", none, none, some "d", some "img.png"⟩
      ⟨none, some "style", none⟩ "p1" true false rfl).2 rfl rfl⟩

/-- C9: when the project has neither an uploaded template image nor a
non-empty `template_style`, `generate_page_image` rejects the request with a
400 validation error before any TaskRecord is created — whatever the page's
description or the flags. -/
theorem C9_generate_requires_template_or_style
    (pg : PageRec) (pr : ProjectRec) (pid : String) (ut fr : Bool)
    (hpid : pg.project_id = pid)
    (htm : pr.template_image_path = none)
    (hst : strTruthy pr.template_style = false) :
    (generate_page_image (some pg) (some pr) pid ut fr).isValidationError = true ∧
    (generate_page_image (some pg) (some pr) pid ut fr).createsTask = false := by
  by_cases himg : (strTruthy pg.generated_image_path && !fr) = true
  · have : generate_page_image (some pg) (some pr) pid ut fr =
        GenResult.badRequest "Image already exists. Set force_regenerate=true to regenerate" := by
      simp [generate_page_image, hpid, himg]
    rw [this]; exact ⟨rfl, rfl⟩
  · by_cases hdesc : pg.description_content = none
    · have : generate_page_image (some pg) (some pr) pid ut fr =
          GenResult.badRequest "Page must have description content first" := by
        simp [generate_page_image, hpid, himg, hdesc]
      rw [this]; exact ⟨rfl, rfl⟩
    · have : generate_page_image (some pg) (some pr) pid ut fr =
          GenResult.badRequest "No template image or style description found for project" := by
        simp [generate_page_image, hpid, himg, hdesc, get_template_path, htm, hst]
        cases ut <;> rfl
      rw [this]; exact ⟨rfl, rfl⟩

/-- Witness for C9: a page with description content, a project with no
template image and no style text. -/
theorem C9_generate_requires_template_or_style_witness :
    (generate_page_image (some ⟨"p1", none, none, some "d", none⟩)
        (some ⟨none, none, some "req"⟩) "p1" true false).isValidationError = true ∧
    (generate_page_image (some ⟨"p1", none, none, some "d", none⟩)
        (some ⟨none, none, some "req"⟩) "p1" true false).createsTask = false :=
  C9_generate_requires_template_or_style _ _ _ _ _ rfl rfl rfl

/-- C8: a reparse request on a `completed` or `failed` file resets it to
`pending` with markdown, error and batch id cleared before any parse starts
(and a parse thread starts exactly when the stored file exists on disk),
while a reparse request on a file already `parsing` starts no new parse and
leaves the row unchanged. -/
theorem C8_reparse_contract (rf : ReferenceFileRec) (ex : Bool) :
    ((rf.parse_status = .completed ∨ rf.parse_status = .failed) →
      (trigger_file_parse rf ex).file =
        { rf with parse_status := .pending, error_message := none,
                  markdown_content := none, mineru_batch_id := none } ∧
      (trigger_file_parse rf ex).parseStarted = ex) ∧
    (rf.parse_status = .parsing →
      (trigger_file_parse rf ex).file = rf ∧
      (trigger_file_parse rf ex).parseStarted = false) := by
  constructor
  · intro hst
    rcases hst with hst | hst <;> cases ex <;>
      simp [trigger_file_parse, hst]
  · intro hst
    simp [trigger_file_parse, hst]

/-- Witness for C8: a concrete failed file with stale results, reparsed with
the stored file present on disk. -/
theorem C8_reparse_contract_witness :
    (trigger_file_parse ⟨.failed, some "old md", some "boom", some "b1"⟩ true).file =
      ⟨.pending, none, none, none⟩ ∧
    (trigger_file_parse ⟨.failed, some "old md", some "boom", some "b1"⟩ true).parseStarted
      = true :=
  (C8_reparse_contract ⟨.failed, some "old md", some "boom", some "b1"⟩ true).1 (Or.inr rfl)

/-- The clear-then-set pair inside `set_current_image_version` amounts to one
map that makes a row current exactly when it carries the chosen row's id. -/
theorem set_current_eq_map (st : PageState) (vid : String) (version : ImageVersion)
    (hfind : st.versions.find? (fun v => v.id == vid) = some version) :
    set_current_image_version st vid = some
      { versions := st.versions.map (fun v => { v with is_current := (v.id == version.id) }),
        generated_image_path := some version.image_path } := by
  unfold set_current_image_version
  rw [hfind]
  simp only [Option.some.injEq, List.map_map]
  congr 1
  apply List.map_congr_left
  intro v _
  by_cases hid : (v.id == version.id) = true <;>
    simp [Function.comp, hid]

/-- Witness for `set_current_eq_map` (it has a hypothesis). -/
theorem set_current_eq_map_witness :
    set_current_image_version
        ⟨[⟨"v1", "a.png", 1, true⟩, ⟨"v2", "b.png", 2, false⟩], some "a.png"⟩ "v2" = some
      ⟨[⟨"v1", "a.png", 1, false⟩, ⟨"v2", "b.png", 2, true⟩], some "b.png"⟩ := by
  rw [set_current_eq_map ⟨[⟨"v1", "a.png", 1, true⟩, ⟨"v2", "b.png", 2, false⟩], some "a.png"⟩
    "v2" ⟨"v2", "b.png", 2, false⟩ rfl]
  rfl

/-- C2: on any prior state whose row ids are distinct, a successful
`set_current_image_version` leaves the page with exactly one current version
and the denormalized pointer equal to that version's path — the ledger
invariant holds after the single clear-then-set transaction. -/
theorem C2_set_current_establishes_invariant
    (st st' : PageState) (vid : String)
    (hn : (st.versions.map (fun v => v.id)).Nodup)
    (h : set_current_image_version st vid = some st') :
    ledgerInv st' ∧ (st'.versions.filter (fun v => v.is_current)).length = 1 := by
  rcases hfind : st.versions.find? (fun v => v.id == vid) with _ | version
  · rw [set_current_image_version, hfind] at h
    cases h
  · rw [set_current_eq_map st vid version hfind] at h
    injection h with h
    subst h
    have hmem : version ∈ st.versions := List.mem_of_find?_eq_some hfind
    set f : ImageVersion → ImageVersion :=
      fun v => { v with is_current := (v.id == version.id) } with hf
    have hfilter : (st.versions.map f).filter (fun v => v.is_current) =
        (st.versions.filter (fun v => v.id == version.id)).map f := by
      rw [List.filter_map]
      rfl
    have hone : ((st.versions.map f).filter (fun v => v.is_current)).length = 1 := by
      rw [hfilter, List.length_map]
      have hle := filter_key_length_le_one hn version.id
      have hpos : 0 < (st.versions.filter (fun v => v.id == version.id)).length :=
        List.length_pos_of_mem (List.mem_filter.mpr ⟨hmem, beq_self_eq_true version.id⟩)
      omega
    refine ⟨⟨le_of_eq hone, ?_⟩, hone⟩
    unfold pointerOk
    rcases hcf : (st.versions.map f).find? (fun v => v.is_current) with _ | w
    · exfalso
      refine List.find?_eq_none.mp hcf (f version) (List.mem_map_of_mem f hmem) ?_
      show (version.id == version.id) = true
      exact beq_self_eq_true version.id
    · have hw : w.is_current = true := List.find?_some hcf
      have hwmem := List.mem_of_find?_eq_some hcf
      obtain ⟨u, hu, hfu⟩ := List.mem_map.mp hwmem
      have huid : (u.id == version.id) = true := by rw [← hfu] at hw; exact hw
      have huv : u = version :=
        List.inj_on_of_nodup_map hn hu hmem (by simpa using huid)
      subst huv
      rw [hcf, Option.map_some', ← hfu]

/-- Witness for C2: a two-row ledger where the non-current row is promoted. -/
theorem C2_set_current_establishes_invariant_witness :
    ledgerInv ⟨[⟨"v1", "a.png", 1, false⟩, ⟨"v2", "b.png", 2, true⟩], some "b.png"⟩ ∧
    (([⟨"v1", "a.png", 1, false⟩, ⟨"v2", "b.png", 2, true⟩] :
        List ImageVersion).filter (fun v => v.is_current)).length = 1 :=
  C2_set_current_establishes_invariant
    ⟨[⟨"v1", "a.png", 1, true⟩, ⟨"v2", "b.png", 2, false⟩], some "a.png"⟩
    ⟨[⟨"v1", "a.png", 1, false⟩, ⟨"v2", "b.png", 2, true⟩], some "b.png"⟩
    "v2" (by decide) (by decide)

/-- C6: promoting the version that is already current, on a state satisfying
the ledger invariant (with distinct row ids), returns exactly the prior
state — one current version, the same one, pointer untouched. -/
theorem C6_set_current_idempotent
    (st : PageState) (vid : String) (version : ImageVersion)
    (hn : (st.versions.map (fun v => v.id)).Nodup)
    (hfind : st.versions.find? (fun v => v.id == vid) = some version)
    (hcur : version.is_current = true)
    (hinv : ledgerInv st) :
    set_current_image_version st vid = some st := by
  rw [set_current_eq_map st vid version hfind]
  have hmem : version ∈ st.versions := List.mem_of_find?_eq_some hfind
  have hvers : st.versions.map
      (fun v => { v with is_current := (v.id == version.id) }) = st.versions := by
    have hpt : ∀ v ∈ st.versions,
        ({ v with is_current := (v.id == version.id) } : ImageVersion) = id v := by
      intro v hv
      by_cases hid : (v.id == version.id) = true
      · have hveq : v = version :=
          List.inj_on_of_nodup_map hn hv hmem (by simpa using hid)
        rw [hveq, beq_self_eq_true, ← hcur]
        rfl
      · have hvc : v.is_current = false := by
          by_contra hvc
          have hvc' : v.is_current = true := by simpa using hvc
          have hveq := eq_of_filter_length_le_one hinv.1 hv hvc' hmem hcur
          rw [hveq] at hid
          exact hid (beq_self_eq_true version.id)
        have hid' : (v.id == version.id) = false := by simpa using hid
        rw [hid', ← hvc]
        rfl
    rw [List.map_congr_left hpt, List.map_id]
  have hptr : st.generated_image_path = some version.image_path := by
    have hinv2 := hinv.2
    unfold pointerOk at hinv2
    rcases hcf : st.versions.find? (fun v => v.is_current) with _ | w
    · exact absurd hcur (List.find?_eq_none.mp hcf version hmem)
    · rw [hcf] at hinv2
      have hw : w.is_current = true := List.find?_some hcf
      have hwmem := List.mem_of_find?_eq_some hcf
      have hwv : w = version := eq_of_filter_length_le_one hinv.1 hwmem hw hmem hcur
      rw [hwv] at hinv2
      simpa using hinv2
  rw [hvers, ← hptr]

/-- Witness for C6: a two-row ledger whose current row is promoted again. -/
theorem C6_set_current_idempotent_witness :
    set_current_image_version
        ⟨[⟨"v1", "a.png", 1, true⟩, ⟨"v2", "b.png", 2, false⟩], some "a.png"⟩ "v1" =
      some ⟨[⟨"v1", "a.png", 1, true⟩, ⟨"v2", "b.png", 2, false⟩], some "a.png"⟩ :=
  C6_set_current_idempotent
    ⟨[⟨"v1", "a.png", 1, true⟩, ⟨"v2", "b.png", 2, false⟩], some "a.png"⟩
    "v1" ⟨"v1", "a.png", 1, true⟩ (by decide) (by decide) rfl (by decide)

theorem specOutline_nil : specOutline [] = [] := by
  rw [specOutline]

theorem specOutline_cons (p : OPage) (rest : List OPage) :
    specOutline (p :: rest) =
      if strTruthy p.part then
        OutlineNode.group (p.part.getD "")
            ((p :: rest.takeWhile (fun q => q.part == p.part)).map
              (fun q => groupedData q.data))
          :: specOutline (rest.dropWhile (fun q => q.part == p.part))
      else OutlineNode.page p.data :: specOutline rest := by
  rw [specOutline]

theorem contentPages_nil : contentPages [] = [] := rfl

theorem contentPages_cons_none (part : Option String) (rest : List SrcPage) :
    contentPages (⟨part, none⟩ :: rest) = contentPages rest := by
  simp [contentPages]

theorem contentPages_cons_some (part : Option String) (oc : PageData)
    (rest : List SrcPage) :
    contentPages (⟨part, some oc⟩ :: rest) = ⟨part, oc⟩ :: contentPages rest := by
  simp [contentPages]

/-- The reconstruction loop, started from an empty current-part accumulator,
produces exactly the run-grouping of the content-bearing pages; started inside
a non-empty part `s`, it first closes the pending group with the leading run
of `s`-pages and then continues as the run-grouping. -/
theorem reconLoop_spec (pages : List SrcPage) :
    (∀ out, reconLoop pages none [] out = out ++ specOutline (contentPages pages)) ∧
    (∀ s cpp out, (s == "") = false →
      reconLoop pages (some s) cpp out =
        out ++ OutlineNode.group s
            (cpp ++ ((contentPages pages).takeWhile (fun q => q.part == some s)).map
              (fun q => groupedData q.data))
          :: specOutline ((contentPages pages).dropWhile (fun q => q.part == some s))) := by
  induction pages with
  | nil =>
    refine ⟨fun out => ?_, fun s cpp out hs => ?_⟩
    · simp [reconLoop, contentPages_nil, specOutline_nil, strTruthy]
    · simp [reconLoop, contentPages_nil, specOutline_nil, strTruthy, hs]
  | cons p rest ih =>
    obtain ⟨ih1, ih2⟩ := ih
    obtain ⟨ppart, poc⟩ := p
    rcases poc with _ | oc
    · -- the loop skips a page with no outline content
      refine ⟨fun out => ?_, fun s cpp out hs => ?_⟩
      · rw [contentPages_cons_none]
        simpa [reconLoop] using ih1 out
      · rw [contentPages_cons_none]
        simpa [reconLoop] using ih2 s cpp out hs
    · rcases ppart with _ | t
      · -- page with content and no part column
        refine ⟨fun out => ?_, fun s cpp out hs => ?_⟩
        · rw [contentPages_cons_some]
          have hstep : reconLoop (⟨none, some oc⟩ :: rest) none [] out =
              reconLoop rest none [] (out ++ [OutlineNode.page oc]) := by
            simp [reconLoop, strTruthy]
          rw [hstep, ih1, specOutline_cons]
          simp [strTruthy]
        · rw [contentPages_cons_some]
          have hstep : reconLoop (⟨none, some oc⟩ :: rest) (some s) cpp out =
              reconLoop rest none []
                (out ++ [OutlineNode.group s cpp, OutlineNode.page oc]) := by
            simp [reconLoop, strTruthy, hs]
          rw [hstep, ih1]
          have hhead : ((⟨none, oc⟩ : OPage).part == some s) = false := rfl
          rw [List.takeWhile_cons, List.dropWhile_cons, hhead]
          simp only [Bool.false_eq_true, if_false, specOutline_cons]
          simp [strTruthy]
      · by_cases ht : (t == "") = true
        · -- part column holds the empty string: falsy, treated as no part
          have ht' : t = "" := by simpa using ht
          refine ⟨fun out => ?_, fun s cpp out hs => ?_⟩
          · rw [contentPages_cons_some]
            have hstep : reconLoop (⟨some t, some oc⟩ :: rest) none [] out =
                reconLoop rest none [] (out ++ [OutlineNode.page oc]) := by
              simp [reconLoop, strTruthy, ht]
            rw [hstep, ih1, specOutline_cons]
            simp [strTruthy, ht]
          · rw [contentPages_cons_some]
            have hstep : reconLoop (⟨some t, some oc⟩ :: rest) (some s) cpp out =
                reconLoop rest none []
                  (out ++ [OutlineNode.group s cpp, OutlineNode.page oc]) := by
              simp [reconLoop, strTruthy, ht, hs]
            rw [hstep, ih1]
            have hts : (t == s) = false := by
              have : t ≠ s := by
                intro h
                rw [← h, ht'] at hs
                simp at hs
              simpa using this
            have hhead : ((⟨some t, oc⟩ : OPage).part == some s) = false := by
              simpa using hts
            rw [List.takeWhile_cons, List.dropWhile_cons, hhead]
            simp only [Bool.false_eq_true, if_false, specOutline_cons]
            simp [strTruthy, ht]
        · -- page with content and a non-empty part label t
          have ht2 : (t == "") = false := by simpa using ht
          refine ⟨fun out => ?_, fun s cpp out hs => ?_⟩
          · rw [contentPages_cons_some]
            have hstep : reconLoop (⟨some t, some oc⟩ :: rest) none [] out =
                reconLoop rest (some t) [groupedData oc] out := by
              simp [reconLoop, strTruthy, ht2]
            rw [hstep, ih2 t [groupedData oc] out ht2, specOutline_cons]
            simp [strTruthy, ht2]
          · by_cases hst : s = t
            · -- the run of part s continues
              subst hst
              rw [contentPages_cons_some]
              have hstep : reconLoop (⟨some s, some oc⟩ :: rest) (some s) cpp out =
                  reconLoop rest (some s) (cpp ++ [groupedData oc]) out := by
                simp [reconLoop, strTruthy, ht2]
              rw [hstep, ih2 s (cpp ++ [groupedData oc]) out hs]
              have hhead : ((⟨some s, oc⟩ : OPage).part == some s) = true := by
                simp
              rw [List.takeWhile_cons, List.dropWhile_cons, hhead]
              simp
            · -- a different part label closes the pending group
              rw [contentPages_cons_some]
              have hscps : (s == t) = false := by simpa using hst
              have hstep : reconLoop (⟨some t, some oc⟩ :: rest) (some s) cpp out =
                  reconLoop rest (some t) [groupedData oc]
                    (out ++ [OutlineNode.group s cpp]) := by
                simp [reconLoop, strTruthy, ht2, hs, hscps]
              rw [hstep, ih2 t [groupedData oc] (out ++ [OutlineNode.group s cpp]) ht2]
              have hts : (t == s) = false := by
                have : t ≠ s := fun h => hst h.symm
                simpa using this
              have hhead : ((⟨some t, oc⟩ : OPage).part == some s) = false := by
                simpa using hts
              rw [List.takeWhile_cons, List.dropWhile_cons, hhead]
              simp only [Bool.false_eq_true, if_false, specOutline_cons]
              simp [strTruthy, ht]

/-- C1: the outline reconstruction inside `generate_page_image` groups exactly
the maximal runs of consecutive content-bearing pages sharing the same
non-empty part label into single group nodes, closes a group at every change
of part value (including to or from "no part"), and keeps part-less pages as
standalone nodes in position; in particular pages with parts
`[A, A, none, A]` yield exactly three nodes — a part-"A" group of two pages,
a standalone page, and a part-"A" group of one page, not merged across the
gap. -/
theorem C1_outline_reconstruction :
    (∀ pages : List SrcPage,
      reconstructOutline pages = specOutline (contentPages pages)) ∧
    reconstructOutline
        [⟨some "A", some ⟨"page1", none⟩⟩, ⟨some "A", some ⟨"page2", none⟩⟩,
         ⟨none, some ⟨"page3", none⟩⟩, ⟨some "A", some ⟨"page4", none⟩⟩] =
      [OutlineNode.group "A" [⟨"page1", none⟩, ⟨"page2", none⟩],
       OutlineNode.page ⟨"page3", none⟩,
       OutlineNode.group "A" [⟨"page4", none⟩]] := by
  refine ⟨fun pages => ?_, by decide⟩
  simpa [reconstructOutline] using (reconLoop_spec pages).1 []

end BananaSlides
